import Mathlib

/-!
The devchain RPC services of `modules/vm/ethereum/api.go`

A shallow embedding of the stake and governance RPC services.  Each Go method
becomes a Lean function that returns its Go result together with the list of
calls it made to its collaborators (consensus RPC client, account manager,
wire decoder), in the order they were made.  A Go `(value, error)` result whose
value is the zero value on failure is an `Except`; where the code itself tells
`nil` results from errors (`get`, `broadcastTx`) both components are kept.
-/

namespace Devchain

/-- Byte strings (`[]byte`, `data.Bytes`). -/
abbrev Bytes := List Nat

/-- Range of `uint32`. -/
def uint32Size : Nat := 4294967296

/-- Conversion `cast.ToInt64` of a `uint64`: Go conversion `int64(h)`. -/
def toInt64 (h : Nat) : Int :=
  if h % 18446744073709551616 < 9223372036854775808 then
    ((h % 18446744073709551616 : Nat) : Int)
  else ((h % 18446744073709551616 : Nat) : Int) - 18446744073709551616

/-- Conversion `[]byte(s)` of a Go string: its UTF-8 bytes. -/
def stringBytes (s : String) : Bytes :=
  (s.data.flatMap String.utf8EncodeChar).map UInt8.toNat

/-- Error values of the services.  The first five are created in `api.go`
(`errors.New`, `fmt.Errorf`) or by `client.ErrNoData()`; `collaborator` stands
for any error handed back by a collaborator. -/
inductive Error
  | emptyChainID
  | addressRequired
  | mustProvideNewAddress
  | noTransactionInBlock (height : Nat) (index : Int)
  | noData
  | collaborator (code : Nat)
  deriving DecidableEq, Repr

/-- Modelled from the spec: `sdk.Actor`, the permission token a signer address
is mapped to (the type is declared outside the given sources). -/
structure Actor where
  chainID : String
  app : String
  address : Bytes
  deriving DecidableEq, Repr

/-- The go-ethereum transaction shell built by `types.NewTransaction`; the
field `signature` is empty until a wallet has signed it. -/
structure EthTx where
  accountNonce : Nat
  recipient : Bytes
  amount : Int
  gasLimit : Int
  gasPrice : Int
  payload : Bytes
  signature : Bytes
  deriving DecidableEq, Repr

/-- Modelled from the spec: `sdk.Tx`, an onion of layers around a domain
transaction (the transaction types are declared outside the given sources).
`nonce` is `nonce.NewTx`, `chain` is `base.NewChainTx`, `sig` is
`auth.NewSig(tx).Wrap()` with its signature slot, `empty` is `sdk.Tx{}`; the
other constructors are the stake and governance transactions built by the
`New...` constructors. -/
inductive Tx
  | empty
  | declareCandidacy (pubKey : Bytes)
  | withdraw (address : Bytes)
  | editCandidacy (address : Bytes)
  | proposeSlot (address : Bytes) (amount : Int) (proposedRoi : Int)
  | acceptSlot (amount : Int) (slotId : String)
  | withdrawSlot (amount : Int) (slotId : String)
  | cancelSlot (address : Bytes) (slotId : String)
  | propose (proposer : Bytes) (fromAddr : Bytes) (toAddr : Bytes) (amount : Int)
      (reason : String)
  | nonce (sequence : Nat) (signers : List Actor) (tx : Tx)
  | chain (chainID : String) (expiresAt : Nat) (tx : Tx)
  | sig (tx : Tx) (slot : Option EthTx)
  deriving DecidableEq, Repr

/-- Modelled from the spec: the `keys.Signable` capability of `tx.Unwrap()`
(the interface is declared outside the given sources).  Only the
authentication layer exposes it; the result is the wrapped transaction and the
signature slot. -/
def Tx.signable : Tx → Option (Tx × Option EthTx)
  | .sig inner slot => some (inner, slot)
  | _ => none

/-- The `abci.ResponseQuery` fields the services read. -/
structure ResponseQuery where
  value : Bytes
  height : Int
  deriving DecidableEq, Repr

/-- The `ctypes.ResultABCIQuery` returned by the consensus RPC client. -/
structure ResultABCIQuery where
  response : ResponseQuery
  deriving DecidableEq, Repr

/-- The `ctypes.ResultBroadcastTxCommit` returned by the consensus RPC client. -/
structure ResultBroadcastTxCommit where
  code : Nat
  log : String
  hash : Bytes
  height : Int
  deriving DecidableEq, Repr

/-- A decoded query target (`stake.Candidates`, `stake.Candidate`, slots, ...):
`zero` is the Go zero value of the declared variable, `decoded` what
`wire.ReadBinaryBytes` stored in it. -/
inductive Data
  | zero
  | decoded (bs : Bytes)
  deriving DecidableEq, Repr

/-- The `StakeQueryResult` of `api.go`. -/
structure StakeQueryResult where
  Height : Int
  Data : Data
  deriving DecidableEq, Repr

/-- Calls made to collaborators, as recorded in the trace of an operation. -/
inductive Call
  | abciQuery (path : String) (key : Bytes)
  | abciQueryWithOptions (path : String) (key : Bytes) (trusted : Bool) (height : Int)
  | broadcastTxCommit (tx : Bytes)
  | amFind (address : Bytes)
  | walletSignTx (wallet : Nat) (address : Bytes) (tx : EthTx) (chainID : Int)
  | readBinary (bs : Bytes)
  deriving DecidableEq, Repr

/-- The backend of a service and the library functions it calls, none of which
is defined in the given sources: `chainID` is `backend.chainID`; the next three
are `backend.localClient`; `amFind` and `walletSignTx` are the account manager
and its wallets; the rest are pure library functions (`common.HexToAddress`,
`auth.SigPerm`, `nonce.NameNonce`, `nonce.GetSeqKey`, `stack.PrefixedKey`,
`wire.BinaryBytes`, `wire.ReadBinaryBytes` on a `*uint32` and on a query
target, `tx.ValidateBasic`, `Signable.SignBytes`, `Signable.Sign`,
`stake.GetPubKey`, `big.Int.SetString`). -/
structure Env where
  chainID : String
  abciQuery : String → Bytes → Except Error ResultABCIQuery
  abciQueryWithOptions : String → Bytes → Bool → Int → Option ResultABCIQuery × Option Error
  broadcastTxCommit : Bytes → Option ResultBroadcastTxCommit × Option Error
  amFind : Bytes → Except Error Nat
  walletSignTx : Nat → Bytes → EthTx → Int → Except Error EthTx
  hexToAddress : String → Bytes
  sigPerm : Bytes → Actor
  nameNonce : String
  getSeqKey : List Actor → Bytes
  prefixedKey : String → Bytes → Bytes
  binaryBytes : Tx → Bytes
  readBinaryUint32 : Bytes → Nat → Nat × Option Error
  readBinaryData : Bytes → Data → Data × Option Error
  validateBasic : Tx → Option Error
  signBytes : Tx → Bytes
  signableSign : Option EthTx → EthTx → Option EthTx × Option Error
  getPubKey : String → Except Error Bytes
  setString : String → Nat → Int

/-- Number of consensus RPC queries (`ABCIQuery`, `ABCIQueryWithOptions`) in a trace. -/
def queryCalls : List Call → Nat
  | [] => 0
  | .abciQuery _ _ :: cs => queryCalls cs + 1
  | .abciQueryWithOptions _ _ _ _ :: cs => queryCalls cs + 1
  | _ :: cs => queryCalls cs

/-- Number of `BroadcastTxCommit` calls in a trace. -/
def broadcastCalls : List Call → Nat
  | [] => 0
  | .broadcastTxCommit _ :: cs => broadcastCalls cs + 1
  | _ :: cs => broadcastCalls cs

/-- Number of account manager calls (`am.Find`, `wallet.SignTx`) in a trace. -/
def accountCalls : List Call → Nat
  | [] => 0
  | .amFind _ :: cs => accountCalls cs + 1
  | .walletSignTx _ _ _ _ :: cs => accountCalls cs + 1
  | _ :: cs => accountCalls cs

/-- Number of decoding attempts (`wire.ReadBinaryBytes`) in a trace. -/
def decodeCalls : List Call → Nat
  | [] => 0
  | .readBinary _ :: cs => decodeCalls cs + 1
  | _ :: cs => decodeCalls cs

/-- Function `getSignerAct` of `api.go`. -/
def getSignerAct (env : Env) (address : String) : Actor :=
  let signer := env.hexToAddress address
  env.sigPerm signer

namespace StakeRPCService

/-- Method `StakeRPCService.getChainID`. -/
def getChainID (env : Env) : Except Error String :=
  if env.chainID = "" then .error .emptyChainID else .ok env.chainID

/-- Method `StakeRPCService.getSequence`: the first component is the value of
`*sequence` after the call, the second the returned error. -/
def getSequence (env : Env) (signers : List Actor) (sequence : Nat) :
    (Nat × Option Error) × List Call :=
  let key := env.prefixedKey env.nameNonce (env.getSeqKey signers)
  match env.abciQuery "/key" key with
  | .error err => ((sequence, some err), [.abciQuery "/key" key])
  | .ok result =>
    if result.response.value.length = 0 then
      ((sequence, none), [.abciQuery "/key" key])
    else
      (env.readBinaryUint32 result.response.value sequence,
        [.abciQuery "/key" key, .readBinary result.response.value])

/-- Method `StakeRPCService.GetSequence`. -/
def GetSequence (env : Env) (address : String) : (Nat × Option Error) × List Call :=
  let signers := [getSignerAct env address]
  getSequence env signers 0

/-- Method `StakeRPCService.sign`, applied to the signable layer with wrapped
transaction `inner` and signature slot `slot`; the first component is the slot
after the call. -/
def sign (env : Env) (inner : Tx) (slot : Option EthTx) (address : String) :
    (Option EthTx × Option Error) × List Call :=
  let ethTx : EthTx :=
    { accountNonce := 0, recipient := List.replicate 20 0, amount := 0, gasLimit := 0,
      gasPrice := 0, payload := env.signBytes (.sig inner slot), signature := [] }
  let addr := env.hexToAddress address
  match env.amFind addr with
  | .error err => ((slot, some err), [.amFind addr])
  | .ok wallet =>
    match env.walletSignTx wallet addr ethTx 15 with
    | .error err => ((slot, some err), [.amFind addr, .walletSignTx wallet addr ethTx 15])
    | .ok signed =>
      (env.signableSign slot signed, [.amFind addr, .walletSignTx wallet addr ethTx 15])

/-- Method `StakeRPCService.signTx`; the first component is the transaction
after the call (signing writes into the signature slot it points to). -/
def signTx (env : Env) (tx : Tx) (address : String) : (Tx × Option Error) × List Call :=
  match env.validateBasic tx with
  | some err => ((tx, some err), [])
  | none =>
    match tx.signable with
    | some (inner, slot) =>
      if address = "" then ((tx, some .addressRequired), [])
      else
        match sign env inner slot address with
        | ((slot', some err), cs) => ((.sig inner slot', some err), cs)
        | ((slot', none), cs) => ((.sig inner slot', none), cs)
    | none => ((tx, none), [])

/-- Method `StakeRPCService.wrapAndSignTx`; `(sdk.Tx{}, err)` is `.error err`. -/
def wrapAndSignTx (env : Env) (tx : Tx) (address : String) (sequence : Nat) :
    Except Error Tx × List Call :=
  let signers := [getSignerAct env address]
  let resolved : Except Error Nat × List Call :=
    if sequence ≤ 0 then
      match getSequence env signers sequence with
      | ((_, some err), cs) => (.error err, cs)
      | ((sequence, none), cs) => (.ok ((sequence + 1) % uint32Size), cs)
    else (.ok sequence, [])
  match resolved with
  | (.error err, cs) => (.error err, cs)
  | (.ok sequence, cs) =>
    let tx := Tx.nonce sequence signers tx
    match getChainID env with
    | .error err => (.error err, cs)
    | .ok chainID =>
      let tx := Tx.chain chainID 0 tx
      let tx := Tx.sig tx none
      match signTx env tx address with
      | ((_, some err), cs') => (.error err, cs ++ cs')
      | ((tx, none), cs') => (.ok tx, cs ++ cs')

/-- Method `StakeRPCService.broadcastTx`. -/
def broadcastTx (env : Env) (tx : Tx) :
    (Option ResultBroadcastTxCommit × Option Error) × List Call :=
  let key := env.binaryBytes tx
  (env.broadcastTxCommit key, [.broadcastTxCommit key])

/-- Arguments of `DeclareCandidacy`. -/
structure DeclareCandidacyArgs where
  Sequence : Nat
  From : String
  PubKey : String
  deriving DecidableEq, Repr

/-- Arguments of `WithdrawCandidacy`. -/
structure WithdrawCandidacyArgs where
  Sequence : Nat
  From : String
  deriving DecidableEq, Repr

/-- Arguments of `EditCandidacy`. -/
structure EditCandidacyArgs where
  Sequence : Nat
  From : String
  NewAddress : String
  deriving DecidableEq, Repr

/-- Arguments of `ProposeSlot`. -/
structure ProposeSlotArgs where
  Sequence : Nat
  From : String
  Amount : Int
  ProposedRoi : Int
  deriving DecidableEq, Repr

/-- Arguments of `AcceptSlot`. -/
structure AcceptSlotArgs where
  Sequence : Nat
  From : String
  Amount : Int
  SlotId : String
  deriving DecidableEq, Repr

/-- Arguments of `WithdrawSlot`. -/
structure WithdrawSlotArgs where
  Sequence : Nat
  From : String
  Amount : Int
  SlotId : String
  deriving DecidableEq, Repr

/-- Arguments of `CancelSlot`. -/
structure CancelSlotArgs where
  Sequence : Nat
  From : String
  SlotId : String
  deriving DecidableEq, Repr

/-- Method `StakeRPCService.prepareDeclareCandidacyTx`. -/
def prepareDeclareCandidacyTx (env : Env) (args : DeclareCandidacyArgs) :
    Except Error Tx × List Call :=
  match env.getPubKey args.PubKey with
  | .error err => (.error err, [])
  | .ok pubKey =>
    let tx := Tx.declareCandidacy pubKey
    wrapAndSignTx env tx args.From args.Sequence

/-- Method `StakeRPCService.DeclareCandidacy`. -/
def DeclareCandidacy (env : Env) (args : DeclareCandidacyArgs) :
    (Option ResultBroadcastTxCommit × Option Error) × List Call :=
  match prepareDeclareCandidacyTx env args with
  | (.error err, cs) => ((none, some err), cs)
  | (.ok tx, cs) => ((broadcastTx env tx).1, cs ++ (broadcastTx env tx).2)

/-- Method `StakeRPCService.prepareWithdrawCandidacyTx`. -/
def prepareWithdrawCandidacyTx (env : Env) (args : WithdrawCandidacyArgs) :
    Except Error Tx × List Call :=
  let address := env.hexToAddress args.From
  let tx := Tx.withdraw address
  wrapAndSignTx env tx args.From args.Sequence

/-- Method `StakeRPCService.WithdrawCandidacy`. -/
def WithdrawCandidacy (env : Env) (args : WithdrawCandidacyArgs) :
    (Option ResultBroadcastTxCommit × Option Error) × List Call :=
  match prepareWithdrawCandidacyTx env args with
  | (.error err, cs) => ((none, some err), cs)
  | (.ok tx, cs) => ((broadcastTx env tx).1, cs ++ (broadcastTx env tx).2)

/-- Method `StakeRPCService.prepareEditCandidacyTx`. -/
def prepareEditCandidacyTx (env : Env) (args : EditCandidacyArgs) :
    Except Error Tx × List Call :=
  if args.NewAddress.utf8ByteSize = 0 then (.error .mustProvideNewAddress, [])
  else
    let address := env.hexToAddress args.NewAddress
    let tx := Tx.editCandidacy address
    wrapAndSignTx env tx args.From args.Sequence

/-- Method `StakeRPCService.EditCandidacy`. -/
def EditCandidacy (env : Env) (args : EditCandidacyArgs) :
    (Option ResultBroadcastTxCommit × Option Error) × List Call :=
  match prepareEditCandidacyTx env args with
  | (.error err, cs) => ((none, some err), cs)
  | (.ok tx, cs) => ((broadcastTx env tx).1, cs ++ (broadcastTx env tx).2)

/-- Method `StakeRPCService.prepareProposeSlotTx`. -/
def prepareProposeSlotTx (env : Env) (args : ProposeSlotArgs) :
    Except Error Tx × List Call :=
  let address := env.hexToAddress args.From
  let tx := Tx.proposeSlot address args.Amount args.ProposedRoi
  wrapAndSignTx env tx args.From args.Sequence

/-- Method `StakeRPCService.ProposeSlot`. -/
def ProposeSlot (env : Env) (args : ProposeSlotArgs) :
    (Option ResultBroadcastTxCommit × Option Error) × List Call :=
  match prepareProposeSlotTx env args with
  | (.error err, cs) => ((none, some err), cs)
  | (.ok tx, cs) => ((broadcastTx env tx).1, cs ++ (broadcastTx env tx).2)

/-- Method `StakeRPCService.prepareAcceptSlotTx`. -/
def prepareAcceptSlotTx (env : Env) (args : AcceptSlotArgs) :
    Except Error Tx × List Call :=
  let tx := Tx.acceptSlot args.Amount args.SlotId
  wrapAndSignTx env tx args.From args.Sequence

/-- Method `StakeRPCService.AcceptSlot`. -/
def AcceptSlot (env : Env) (args : AcceptSlotArgs) :
    (Option ResultBroadcastTxCommit × Option Error) × List Call :=
  match prepareAcceptSlotTx env args with
  | (.error err, cs) => ((none, some err), cs)
  | (.ok tx, cs) => ((broadcastTx env tx).1, cs ++ (broadcastTx env tx).2)

/-- Method `StakeRPCService.prepareWithdrawSlotTx`. -/
def prepareWithdrawSlotTx (env : Env) (args : WithdrawSlotArgs) :
    Except Error Tx × List Call :=
  let tx := Tx.withdrawSlot args.Amount args.SlotId
  wrapAndSignTx env tx args.From args.Sequence

/-- Method `StakeRPCService.WithdrawSlot`. -/
def WithdrawSlot (env : Env) (args : WithdrawSlotArgs) :
    (Option ResultBroadcastTxCommit × Option Error) × List Call :=
  match prepareWithdrawSlotTx env args with
  | (.error err, cs) => ((none, some err), cs)
  | (.ok tx, cs) => ((broadcastTx env tx).1, cs ++ (broadcastTx env tx).2)

/-- Method `StakeRPCService.prepareCancelSlotTx`. -/
def prepareCancelSlotTx (env : Env) (args : CancelSlotArgs) :
    Except Error Tx × List Call :=
  let address := env.hexToAddress args.From
  let tx := Tx.cancelSlot address args.SlotId
  wrapAndSignTx env tx args.From args.Sequence

/-- Method `StakeRPCService.CancelSlot`. -/
def CancelSlot (env : Env) (args : CancelSlotArgs) :
    (Option ResultBroadcastTxCommit × Option Error) × List Call :=
  match prepareCancelSlotTx env args with
  | (.error err, cs) => ((none, some err), cs)
  | (.ok tx, cs) => ((broadcastTx env tx).1, cs ++ (broadcastTx env tx).2)

/-- Method `StakeRPCService.get`; a `nil` byte slice is the empty list. -/
def get (env : Env) (path : String) (key : Bytes) (height : Int) :
    (Bytes × Int × Option Error) × List Call :=
  match env.abciQueryWithOptions path key true height with
  | (none, err) => (([], height, err), [.abciQueryWithOptions path key true height])
  | (some resp, err) =>
    ((resp.response.value, resp.response.height, err),
      [.abciQueryWithOptions path key true height])

/-- Method `StakeRPCService.getParsed`: the returned height and error, and the
value of the target `data` after the call. -/
def getParsed (env : Env) (path : String) (key : Bytes) (data : Data) (height : Nat) :
    ((Int × Option Error) × Data) × List Call :=
  match get env path key (toInt64 height) with
  | ((_, _, some err), cs) => (((0, some err), data), cs)
  | ((bs, h, none), cs) =>
    if bs.length = 0 then (((h, some .noData), data), cs)
    else
      match env.readBinaryData bs data with
      | (data', some err) => (((0, some err), data'), cs ++ [.readBinary bs])
      | (data', none) => (((h, none), data'), cs ++ [.readBinary bs])

/-- Method `StakeRPCService.QueryValidators`. -/
def QueryValidators (env : Env) (height : Nat) :
    (Option StakeQueryResult × Option Error) × List Call :=
  match getParsed env "/validators" [0] Data.zero height with
  | (((_, some err), _), cs) => ((none, some err), cs)
  | (((h, none), candidates), cs) => ((some ⟨h, candidates⟩, none), cs)

/-- Method `StakeRPCService.QueryValidator`. -/
def QueryValidator (env : Env) (address : String) (height : Nat) :
    (Option StakeQueryResult × Option Error) × List Call :=
  match getParsed env "/validator" (stringBytes address) Data.zero height with
  | (((_, some err), _), cs) => ((none, some err), cs)
  | (((h, none), candidate), cs) => ((some ⟨h, candidate⟩, none), cs)

/-- Method `StakeRPCService.QuerySlots`. -/
def QuerySlots (env : Env) (height : Nat) :
    (Option StakeQueryResult × Option Error) × List Call :=
  match getParsed env "/slots" [0] Data.zero height with
  | (((_, some err), _), cs) => ((none, some err), cs)
  | (((h, none), slots), cs) => ((some ⟨h, slots⟩, none), cs)

/-- Method `StakeRPCService.QuerySlot`. -/
def QuerySlot (env : Env) (slotId : String) (height : Nat) :
    (Option StakeQueryResult × Option Error) × List Call :=
  match getParsed env "/slot" (stringBytes slotId) Data.zero height with
  | (((_, some err), _), cs) => ((none, some err), cs)
  | (((h, none), slot), cs) => ((some ⟨h, slot⟩, none), cs)

/-- Method `StakeRPCService.QueryDelegator`. -/
def QueryDelegator (env : Env) (address : String) (height : Nat) :
    (Option StakeQueryResult × Option Error) × List Call :=
  match getParsed env "/delegator" (stringBytes address) Data.zero height with
  | (((_, some err), _), cs) => ((none, some err), cs)
  | (((h, none), slotDelegates), cs) => ((some ⟨h, slotDelegates⟩, none), cs)

end StakeRPCService

namespace GovernanceRPCService

/-- Arguments of `Propose`. -/
structure GovernanceProposalArgs where
  Proposer : String
  From : String
  To : String
  Amount : String
  Reason : String
  deriving DecidableEq, Repr

/-- Method `GovernanceRPCService.getChainID`. -/
def getChainID (env : Env) : Except Error String :=
  if env.chainID = "" then .error .emptyChainID else .ok env.chainID

/-- Method `GovernanceRPCService.getSequence`. -/
def getSequence (env : Env) (signers : List Actor) (sequence : Nat) :
    (Nat × Option Error) × List Call :=
  let key := env.prefixedKey env.nameNonce (env.getSeqKey signers)
  match env.abciQuery "/key" key with
  | .error err => ((sequence, some err), [.abciQuery "/key" key])
  | .ok result =>
    if result.response.value.length = 0 then
      ((sequence, none), [.abciQuery "/key" key])
    else
      (env.readBinaryUint32 result.response.value sequence,
        [.abciQuery "/key" key, .readBinary result.response.value])

/-- Method `GovernanceRPCService.sign`. -/
def sign (env : Env) (inner : Tx) (slot : Option EthTx) (address : String) :
    (Option EthTx × Option Error) × List Call :=
  let ethTx : EthTx :=
    { accountNonce := 0, recipient := List.replicate 20 0, amount := 0, gasLimit := 0,
      gasPrice := 0, payload := env.signBytes (.sig inner slot), signature := [] }
  let addr := env.hexToAddress address
  match env.amFind addr with
  | .error err => ((slot, some err), [.amFind addr])
  | .ok wallet =>
    match env.walletSignTx wallet addr ethTx 15 with
    | .error err => ((slot, some err), [.amFind addr, .walletSignTx wallet addr ethTx 15])
    | .ok signed =>
      (env.signableSign slot signed, [.amFind addr, .walletSignTx wallet addr ethTx 15])

/-- Method `GovernanceRPCService.signTx`. -/
def signTx (env : Env) (tx : Tx) (address : String) : (Tx × Option Error) × List Call :=
  match env.validateBasic tx with
  | some err => ((tx, some err), [])
  | none =>
    match tx.signable with
    | some (inner, slot) =>
      if address = "" then ((tx, some .addressRequired), [])
      else
        match sign env inner slot address with
        | ((slot', some err), cs) => ((.sig inner slot', some err), cs)
        | ((slot', none), cs) => ((.sig inner slot', none), cs)
    | none => ((tx, none), [])

/-- Method `GovernanceRPCService.wrapAndSignTx`. -/
def wrapAndSignTx (env : Env) (tx : Tx) (address : String) : Except Error Tx × List Call :=
  let signers := [getSignerAct env address]
  match getSequence env signers 0 with
  | ((_, some err), cs) => (.error err, cs)
  | ((sequence, none), cs) =>
    let sequence := (sequence + 1) % uint32Size
    let tx := Tx.nonce sequence signers tx
    match getChainID env with
    | .error err => (.error err, cs)
    | .ok chainID =>
      let tx := Tx.chain chainID 0 tx
      let tx := Tx.sig tx none
      match signTx env tx address with
      | ((_, some err), cs') => (.error err, cs ++ cs')
      | ((tx, none), cs') => (.ok tx, cs ++ cs')

/-- Method `GovernanceRPCService.broadcastTx`. -/
def broadcastTx (env : Env) (tx : Tx) :
    (Option ResultBroadcastTxCommit × Option Error) × List Call :=
  let key := env.binaryBytes tx
  (env.broadcastTxCommit key, [.broadcastTxCommit key])

/-- Method `GovernanceRPCService.Propose`: the result of `wrapAndSignTx` is
dropped by the source, only its calls remain. -/
def Propose (env : Env) (args : GovernanceProposalArgs) :
    (Option ResultBroadcastTxCommit × Option Error) × List Call :=
  let proposer := env.hexToAddress args.Proposer
  let fromAddr := env.hexToAddress args.From
  let toAddr := env.hexToAddress args.To
  let amount := env.setString args.Amount 10
  let tx := Tx.propose proposer fromAddr toAddr amount args.Reason
  let wrapped := wrapAndSignTx env tx args.Proposer
  ((broadcastTx env tx).1, wrapped.2 ++ (broadcastTx env tx).2)

end GovernanceRPCService

/-! ## A concrete backend -/

/-- A sample wire encoding of transactions: one tag per layer. -/
def sampleBinaryBytes : Tx → Bytes
  | .empty => [0]
  | .declareCandidacy pubKey => 1 :: pubKey
  | .withdraw address => 2 :: address
  | .editCandidacy address => 3 :: address
  | .proposeSlot address amount proposedRoi => 4 :: amount.toNat :: proposedRoi.toNat :: address
  | .acceptSlot amount slotId => 5 :: amount.toNat :: stringBytes slotId
  | .withdrawSlot amount slotId => 6 :: amount.toNat :: stringBytes slotId
  | .cancelSlot address slotId => 7 :: (address ++ stringBytes slotId)
  | .propose proposer fromAddr toAddr amount reason =>
    8 :: amount.toNat :: (proposer ++ fromAddr ++ toAddr ++ stringBytes reason)
  | .nonce sequence signers tx =>
    9 :: sequence :: signers.length :: sampleBinaryBytes tx
  | .chain chainID expiresAt tx => 10 :: expiresAt :: (stringBytes chainID).length ::
      (stringBytes chainID ++ sampleBinaryBytes tx)
  | .sig tx slot => 11 :: (match slot with | none => 0 | some _ => 1) :: sampleBinaryBytes tx

/-- A sample decoder of a big-endian `uint32`. -/
def sampleReadUint32 (bs : Bytes) (old : Nat) : Nat × Option Error :=
  match bs with
  | [a, b, c, d] => ((((a * 256 + b) * 256 + c) * 256 + d) % uint32Size, none)
  | _ => (old, some (.collaborator 2))

/-- A sample backend: chain id learned, remote sequence 3 for every signer,
every account known to the account manager, state queries answered with an
empty value at the requested height. -/
def sampleEnv : Env where
  chainID := "test-chain"
  abciQuery := fun _ _ => .ok ⟨⟨[0, 0, 0, 3], 10⟩⟩
  abciQueryWithOptions := fun _ _ _ h => (some ⟨⟨[], h⟩⟩, none)
  broadcastTxCommit := fun bs => (some ⟨0, "ok", bs, 11⟩, none)
  amFind := fun _ => .ok 1
  walletSignTx := fun _ _ tx _ => .ok { tx with signature := [27] }
  hexToAddress := stringBytes
  sigPerm := fun a => ⟨"", "sigs", a⟩
  nameNonce := "nonce"
  getSeqKey := fun signers => signers.flatMap (fun a => a.address)
  prefixedKey := fun p k => stringBytes p ++ k
  binaryBytes := sampleBinaryBytes
  readBinaryUint32 := sampleReadUint32
  readBinaryData := fun bs _ => (.decoded bs, none)
  validateBasic := fun _ => none
  signBytes := sampleBinaryBytes
  signableSign := fun _ signed => (some signed, none)
  getPubKey := fun s => .ok (stringBytes s)
  setString := fun s base => ((s.data.foldl (fun n c => base * n + (c.toNat - 48)) 0 : Nat) : Int)

/-- The sample backend before the chain id is learned. -/
def emptyChainEnv : Env := { sampleEnv with chainID := "" }

/-- The sample backend with the largest remote sequence stored for every signer. -/
def maxSequenceEnv : Env :=
  { sampleEnv with abciQuery := fun _ _ => .ok ⟨⟨[255, 255, 255, 255], 10⟩⟩ }

/-- The sample backend with a consensus client whose state queries fail at
transport level: no response object, error 7. -/
def transportFailEnv : Env :=
  { sampleEnv with abciQueryWithOptions := fun _ _ _ _ => (none, some (.collaborator 7)) }

/-- The sample backend with no sequence record stored for any signer. -/
def freshEnv : Env :=
  { sampleEnv with abciQuery := fun _ _ => .ok ⟨⟨[], 10⟩⟩ }

/-- The sequence stored in the nonce layer of an envelope, read by unwrapping
the authentication layer, then the chain-scope layer. -/
def Tx.nonceSequence : Tx → Option Nat
  | .sig (.chain _ _ (.nonce sequence _ _)) _ => some sequence
  | _ => none

/-- A sample structural validation: it refuses an envelope whose nonce layer
holds sequence 0, the value `wrapAndSignTx` itself reads as unset, and accepts
every other transaction. -/
def sampleValidateBasic (tx : Tx) : Option Error :=
  if tx.nonceSequence = some 0 then some (.collaborator 3) else none

/-- The sample backend with the validation that refuses a zero sequence. -/
def validatingEnv : Env := { sampleEnv with validateBasic := sampleValidateBasic }

/-- The backend with the largest remote sequence and the validation that refuses
a zero sequence. -/
def validatingMaxEnv : Env := { maxSequenceEnv with validateBasic := sampleValidateBasic }

/-- The key under which `getSequence` looks up the sequence of a signer set. -/
def sequenceKey (env : Env) (signers : List Actor) : Bytes :=
  env.prefixedKey env.nameNonce (env.getSeqKey signers)

/-- What a stake write operation owes to its prepare step: when preparing
failed, a nil result with that error, the calls of the prepare step only and no
`BroadcastTxCommit`; otherwise the pair returned by `BroadcastTxCommit` on the
wire encoding of the prepared envelope, unchanged, with that single broadcast
as the last call. -/
def WriteContract (env : Env) (prepared : Except Error Tx × List Call)
    (outcome : (Option ResultBroadcastTxCommit × Option Error) × List Call) : Prop :=
  match prepared.1 with
  | .error err => outcome = ((none, some err), prepared.2) ∧ broadcastCalls outcome.2 = 0
  | .ok tx =>
    outcome = (env.broadcastTxCommit (env.binaryBytes tx),
      prepared.2 ++ [.broadcastTxCommit (env.binaryBytes tx)]) ∧
    broadcastCalls outcome.2 = 1

/-! ## The block service `CmtRPCService` -/

/-- The `ctypes.ResultTx` returned by the consensus RPC client. -/
structure ResultTx where
  hash : Bytes
  height : Int
  index : Nat
  tx : Bytes
  deriving DecidableEq, Repr

/-- The fields of the block returned by `localClient.Block` that
`GetTransactionFromBlock` reads: `block.Block.NumTxs` (an `int64` of the header)
and the slice `block.Block.Txs`. -/
structure ResultBlock where
  NumTxs : Int
  Txs : List Bytes
  deriving DecidableEq, Repr

/-- Calls of `CmtRPCService` to the consensus RPC client. -/
inductive CmtCall
  | block (height : Int)
  | tx (hash : Bytes) (prove : Bool)
  deriving DecidableEq, Repr

/-- The backend of `CmtRPCService` and the library functions it calls, none of
which is defined in the given sources: `block` and `tx` are
`backend.localClient.Block` and `.Tx`; the rest are `types.Tx.Hash`,
`hex.EncodeToString`, `cmn.StripHex` and `hex.DecodeString`. -/
structure CmtBackend where
  block : Int → Except Error ResultBlock
  tx : Bytes → Bool → Option ResultTx × Option Error
  txHash : Bytes → Bytes
  encodeToString : Bytes → String
  stripHex : String → String
  decodeString : String → Except Error Bytes

/-- How a Go call ends: it returns a value, or the runtime panics on a slice
index out of range. -/
inductive Outcome (α : Type)
  | returned (value : α)
  | indexOutOfRange (index : Int) (length : Nat)
  deriving DecidableEq, Repr

/-- Go index expression `txs[index]` for an `int64` index: the element when
`0 <= index < len(txs)`, otherwise none (the runtime panics). -/
def sliceIndex (txs : List Bytes) (index : Int) : Option Bytes :=
  if 0 ≤ index then txs[index.toNat]? else none

/-- Number of transaction lookups (`localClient.Tx`) in a trace. -/
def txLookups : List CmtCall → Nat
  | [] => 0
  | .tx _ _ :: cs => txLookups cs + 1
  | _ :: cs => txLookups cs

namespace CmtRPCService

/-- Method `CmtRPCService.GetTransaction`. -/
def GetTransaction (b : CmtBackend) (hash : String) :
    (Option ResultTx × Option Error) × List CmtCall :=
  match b.decodeString (b.stripHex hash) with
  | .error err => ((none, some err), [])
  | .ok bkey => (b.tx bkey false, [.tx bkey false])

/-- Method `CmtRPCService.GetTransactionFromBlock`. -/
def GetTransactionFromBlock (b : CmtBackend) (height : Nat) (index : Int) :
    Outcome (Option ResultTx × Option Error) × List CmtCall :=
  let h := toInt64 height
  match b.block h with
  | .error err => (.returned (none, some err), [.block h])
  | .ok block =>
    if index ≥ block.NumTxs then
      (.returned (none, some (.noTransactionInBlock height index)), [.block h])
    else
      match sliceIndex block.Txs index with
      | none => (.indexOutOfRange index block.Txs.length, [.block h])
      | some tx =>
        let hash := b.txHash tx
        (.returned (GetTransaction b (b.encodeToString hash)).1,
          .block h :: (GetTransaction b (b.encodeToString hash)).2)

end CmtRPCService

/-- A sample block backend: every height holds the block with the two
transactions `[1]` and `[2]`, and every transaction is found. -/
def sampleCmt : CmtBackend where
  block := fun _ => .ok ⟨2, [[1], [2]]⟩
  tx := fun hash _ => (some ⟨hash, 5, 0, hash⟩, none)
  txHash := fun tx => tx
  encodeToString := fun bs => String.mk (bs.map Char.ofNat)
  stripHex := fun s => s
  decodeString := fun s => .ok (s.data.map Char.toNat)

/-! ## The proposal store of `modules/governance/db.go` -/

/-- Modelled from the spec: the governance `Proposal` (the type is declared
outside the given sources): identifier, proposer address, originating block
height, from and to addresses, amount as a decimal string, reason, creation
time, and the result fields.  The addresses are the values the Go pointers
refer to. -/
structure Proposal where
  Id : String
  Proposer : Bytes
  BlockHeight : Nat
  From : Bytes
  To : Bytes
  Amount : String
  Reason : String
  CreatedAt : String
  Result : String
  ResultMsg : String
  ResultBlockHeight : Nat
  ResultAt : String
  deriving DecidableEq, Repr

/-- A row of the table `governance_proposal`, with the columns named in the
statements of `db.go`. -/
structure ProposalRow where
  id : String
  proposer : String
  block_height : Nat
  from_address : String
  to_address : String
  amount : String
  reason : String
  created_at : String
  result : String
  result_msg : String
  result_block_height : Nat
  result_at : String
  deriving DecidableEq, Repr

/-- The library functions `db.go` calls: `strings.ToUpper`,
`common.Address.String` and `common.HexToAddress`. -/
structure DbLib where
  toUpper : String → String
  addressString : Bytes → String
  hexToAddress : String → Bytes

/-- Modelled from the spec: the row written by the insert statement of
`SaveProposal`; the table definition is outside the given sources, the four
result columns the statement does not name are empty or zero at creation. -/
def insertedRow (lib : DbLib) (pp : Proposal) : ProposalRow :=
  { id := lib.toUpper pp.Id, proposer := lib.addressString pp.Proposer,
    block_height := pp.BlockHeight, from_address := lib.addressString pp.From,
    to_address := lib.addressString pp.To, amount := pp.Amount, reason := pp.Reason,
    created_at := pp.CreatedAt, result := "", result_msg := "", result_block_height := 0,
    result_at := "" }

/-- Function `SaveProposal` over a table keyed by `id`: the new table, or none
when the insert fails on an existing key and the function panics. -/
def SaveProposal (lib : DbLib) (db : List ProposalRow) (pp : Proposal) :
    Option (List ProposalRow) :=
  if db.any (fun r => decide (r.id = lib.toUpper pp.Id)) then none
  else some (db ++ [insertedRow lib pp])

/-- Function `GetProposalById`: none is the `nil` returned on `sql.ErrNoRows`. -/
def GetProposalById (lib : DbLib) (db : List ProposalRow) (pid : String) : Option Proposal :=
  match db.find? (fun r => decide (r.id = lib.toUpper pid)) with
  | none => none
  | some r =>
    let prp := lib.hexToAddress r.proposer
    let fr := lib.hexToAddress r.from_address
    let toAddr := lib.hexToAddress r.to_address
    some { Id := pid, Proposer := prp, BlockHeight := r.block_height, From := fr, To := toAddr,
           Amount := r.amount, Reason := r.reason, CreatedAt := r.created_at,
           Result := r.result, ResultMsg := r.result_msg,
           ResultBlockHeight := r.result_block_height, ResultAt := r.result_at }

/-- Sample library functions: upper-casing of the letters `a` to `z`, and
addresses written as the string of their byte codes. -/
def sampleDbLib : DbLib where
  toUpper := fun s => String.mk (s.data.map Char.toUpper)
  addressString := fun a => String.mk (a.map Char.ofNat)
  hexToAddress := fun s => s.data.map Char.toNat

/-- A sample proposal with the identifier `abc123` of the specification. -/
def sampleProposal : Proposal :=
  { Id := "abc123", Proposer := [65], BlockHeight := 7, From := [66], To := [67],
    Amount := "1000", Reason := "r", CreatedAt := "t", Result := "", ResultMsg := "",
    ResultBlockHeight := 0, ResultAt := "" }

/-! ## Traces of the building blocks -/

open StakeRPCService

theorem getSequence_trace (env : Env) (signers : List Actor) (sequence : Nat) :
    queryCalls (getSequence env signers sequence).2 = 1 ∧
    accountCalls (getSequence env signers sequence).2 = 0 ∧
    broadcastCalls (getSequence env signers sequence).2 = 0 := by
  unfold getSequence
  simp only []
  split
  · simp [queryCalls, accountCalls, broadcastCalls]
  · split <;> simp [queryCalls, accountCalls, broadcastCalls]

theorem sign_trace (env : Env) (inner : Tx) (slot : Option EthTx) (address : String) :
    queryCalls (sign env inner slot address).2 = 0 ∧
    broadcastCalls (sign env inner slot address).2 = 0 ∧
    decodeCalls (sign env inner slot address).2 = 0 := by
  unfold sign
  simp only []
  split
  · simp [queryCalls, broadcastCalls, decodeCalls]
  · split <;> simp [queryCalls, broadcastCalls, decodeCalls]

theorem signTx_trace (env : Env) (tx : Tx) (address : String) :
    queryCalls (signTx env tx address).2 = 0 ∧
    broadcastCalls (signTx env tx address).2 = 0 ∧
    decodeCalls (signTx env tx address).2 = 0 := by
  unfold signTx
  split
  · simp [queryCalls, broadcastCalls, decodeCalls]
  · split
    · split
      · simp [queryCalls, broadcastCalls, decodeCalls]
      · rename_i inner slot _ _
        have h := sign_trace env inner slot address
        split <;> rename_i hs <;> rw [hs] at h <;> exact h
    · simp [queryCalls, broadcastCalls, decodeCalls]

theorem queryCalls_append (xs ys : List Call) :
    queryCalls (xs ++ ys) = queryCalls xs + queryCalls ys := by
  induction xs with
  | nil => simp [queryCalls]
  | cons c cs ih => cases c <;> simp [queryCalls, ih] <;> omega

theorem broadcastCalls_append (xs ys : List Call) :
    broadcastCalls (xs ++ ys) = broadcastCalls xs + broadcastCalls ys := by
  induction xs with
  | nil => simp [broadcastCalls]
  | cons c cs ih =>
    cases c <;> simp [broadcastCalls, ih]
    omega

theorem decodeCalls_append (xs ys : List Call) :
    decodeCalls (xs ++ ys) = decodeCalls xs + decodeCalls ys := by
  induction xs with
  | nil => simp [decodeCalls]
  | cons c cs ih =>
    cases c <;> simp [decodeCalls, ih]
    omega

/-- Shape of every successful `StakeRPCService.wrapAndSignTx`: the envelope is
the authentication layer over the chain-scope layer (backend chain id, height
bound 0) over the nonce layer (resolved sequence, the signer's actor) over the
inner transaction, and the chain id is not empty. -/
theorem wrapAndSignTx_ok_shape (env : Env) (tx : Tx) (address : String) (sequence : Nat)
    (envelope : Tx) (h : (wrapAndSignTx env tx address sequence).1 = .ok envelope) :
    env.chainID ≠ "" ∧
    ∃ slot, envelope = .sig (.chain env.chainID 0
      (.nonce (if sequence ≤ 0 then
          ((getSequence env [getSignerAct env address] sequence).1.1 + 1) % uint32Size
        else sequence) [getSignerAct env address] tx)) slot := by
  unfold wrapAndSignTx at h
  by_cases hc : env.chainID = ""
  · exfalso
    revert h
    simp only [getChainID, hc]
    split <;> simp
  · refine ⟨hc, ?_⟩
    revert h
    simp only [getChainID, hc, if_false]
    by_cases hs : sequence ≤ 0
    · simp only [hs, if_true]
      rcases hg : getSequence env [getSignerAct env address] sequence with ⟨⟨s, e⟩, cs⟩
      cases e with
      | some err => simp
      | none =>
        simp only [signTx]
        cases env.validateBasic _ with
        | some err => simp
        | none =>
          simp only [Tx.signable]
          by_cases ha : address = ""
          · simp [ha]
          · simp only [ha, if_false]
            rcases sign env _ none address with ⟨⟨slot, e⟩, cs'⟩
            cases e with
            | some err => simp
            | none =>
              intro h
              simp at h
              exact ⟨slot, h.symm⟩
    · simp only [hs, if_false]
      simp only [signTx]
      cases env.validateBasic _ with
      | some err => simp
      | none =>
        simp only [Tx.signable]
        by_cases ha : address = ""
        · simp [ha]
        · simp only [ha, if_false]
          rcases sign env _ none address with ⟨⟨slot, e⟩, cs'⟩
          cases e with
          | some err => simp
          | none =>
            intro h
            simp at h
            exact ⟨slot, h.symm⟩

/-- Every successful `StakeRPCService.wrapAndSignTx` has passed the structural
validation of `signTx` on the wrapped, still unsigned envelope. -/
theorem wrapAndSignTx_ok_validated (env : Env) (tx : Tx) (address : String) (sequence : Nat)
    (envelope : Tx) (h : (wrapAndSignTx env tx address sequence).1 = .ok envelope) :
    env.validateBasic (.sig (.chain env.chainID 0
      (.nonce (if sequence ≤ 0 then
          ((getSequence env [getSignerAct env address] sequence).1.1 + 1) % uint32Size
        else sequence) [getSignerAct env address] tx)) none) = none := by
  cases hvb : env.validateBasic (.sig (.chain env.chainID 0
      (.nonce (if sequence ≤ 0 then
          ((getSequence env [getSignerAct env address] sequence).1.1 + 1) % uint32Size
        else sequence) [getSignerAct env address] tx)) none) with
  | none => rfl
  | some verr =>
    exfalso
    unfold wrapAndSignTx at h
    by_cases hc : env.chainID = ""
    · revert h
      simp only [getChainID, hc]
      split <;> simp
    · revert h
      simp only [getChainID, hc, if_false]
      by_cases hs : sequence ≤ 0
      · simp only [hs, if_true] at hvb ⊢
        rcases hg : getSequence env [getSignerAct env address] sequence with ⟨⟨s, e⟩, cs⟩
        rw [hg] at hvb
        cases e with
        | some err => simp
        | none =>
          simp only [signTx, hvb]
          simp
      · simp only [hs, if_false] at hvb ⊢
        simp only [signTx, hvb]
        simp

theorem wrapAndSignTx_no_broadcast (env : Env) (tx : Tx) (address : String) (sequence : Nat) :
    broadcastCalls (wrapAndSignTx env tx address sequence).2 = 0 := by
  have hg := (getSequence_trace env [getSignerAct env address] sequence).2.2
  unfold wrapAndSignTx
  simp only []
  split
  · rename_i err cs hres
    split at hres
    · split at hres
      · rename_i hgs
        rw [hgs] at hg
        simp only [Prod.mk.injEq] at hres
        rw [← hres.2]; exact hg
      · simp at hres
    · simp at hres
  · rename_i sequence' cs hres
    have hcs : broadcastCalls cs = 0 := by
      split at hres
      · split at hres
        · simp at hres
        · rename_i hgs
          rw [hgs] at hg
          simp only [Prod.mk.injEq] at hres
          rw [← hres.2]; exact hg
      · simp only [Prod.mk.injEq] at hres
        rw [← hres.2]; rfl
    split
    · exact hcs
    · rename_i c hc
      have ht := (signTx_trace env
        (.sig (.chain c 0 (.nonce sequence' [getSignerAct env address] tx)) none) address).2.1
      split <;> rename_i hs <;> rw [hs] at ht <;>
        simp only [broadcastCalls_append, hcs, ht]

theorem writeContract_of_prepare (env : Env) (prepared : Except Error Tx × List Call) :
    broadcastCalls prepared.2 = 0 →
    WriteContract env prepared
      (match prepared with
        | (.error err, cs) => ((none, some err), cs)
        | (.ok tx, cs) => ((broadcastTx env tx).1, cs ++ (broadcastTx env tx).2)) := by
  intro hb
  rcases prepared with ⟨r, cs⟩
  cases r with
  | error err => exact ⟨rfl, hb⟩
  | ok tx =>
    refine ⟨rfl, ?_⟩
    show broadcastCalls (cs ++ [.broadcastTxCommit (env.binaryBytes tx)]) = 1
    rw [broadcastCalls_append]
    simp only [] at hb
    rw [hb]
    rfl

/-! ## Claims -/

/-- C1, as stated, fails: with an empty chain id and the requested sequence
unset, `wrapAndSignTx` calls the consensus RPC client (one `ABCIQuery`) before it
reports the empty chain id. -/
theorem wrapAndSignTx_emptyChainID_queries_first :
    ¬ (∀ (env : Env) (tx : Tx) (address : String) (sequence : Nat), env.chainID = "" →
        (wrapAndSignTx env tx address sequence).1 = .error .emptyChainID ∧
        queryCalls (wrapAndSignTx env tx address sequence).2 = 0 ∧
        accountCalls (wrapAndSignTx env tx address sequence).2 = 0) := by
  intro h
  have h1 := (h emptyChainEnv (.proposeSlot [65] 1000 500) "A" 0 rfl).2.1
  revert h1
  decide

/-- C1, amended: with an empty chain id `wrapAndSignTx` always fails and never
calls the account manager.  With a non-zero requested sequence it fails with the
chain-not-ready error and makes no call at all.  With the requested sequence
unset it first runs the sequence query (exactly one `ABCIQuery`), returns the
error of that query or of its decoding when there is one, and the
chain-not-ready error otherwise. -/
theorem wrapAndSignTx_emptyChainID (env : Env) (tx : Tx) (address : String) (sequence : Nat)
    (h : env.chainID = "") :
    (sequence ≠ 0 → wrapAndSignTx env tx address sequence = (.error .emptyChainID, [])) ∧
    (sequence = 0 →
      (wrapAndSignTx env tx address sequence).2 =
        (getSequence env [getSignerAct env address] 0).2 ∧
      queryCalls (wrapAndSignTx env tx address sequence).2 = 1 ∧
      (wrapAndSignTx env tx address sequence).1 =
        match (getSequence env [getSignerAct env address] 0).1.2 with
        | some err => .error err
        | none => .error .emptyChainID) ∧
    accountCalls (wrapAndSignTx env tx address sequence).2 = 0 ∧
    ∃ err, (wrapAndSignTx env tx address sequence).1 = .error err := by
  by_cases hs : sequence = 0
  · subst hs
    have ht := getSequence_trace env [getSignerAct env address] 0
    have key : (wrapAndSignTx env tx address 0).2 =
          (getSequence env [getSignerAct env address] 0).2 ∧
        (wrapAndSignTx env tx address 0).1 =
          match (getSequence env [getSignerAct env address] 0).1.2 with
          | some err => .error err
          | none => .error .emptyChainID := by
      unfold wrapAndSignTx
      simp only [getChainID, h, le_refl, if_true]
      rcases getSequence env [getSignerAct env address] 0 with ⟨⟨s, e⟩, cs⟩
      cases e <;> simp
    refine ⟨fun hne => absurd rfl hne, fun _ => ⟨key.1, ?_, key.2⟩, ?_, ?_⟩
    · rw [key.1]; exact ht.1
    · rw [key.1]; exact ht.2.1
    · rw [key.2]
      cases (getSequence env [getSignerAct env address] 0).1.2 with
      | none => exact ⟨_, rfl⟩
      | some err => exact ⟨_, rfl⟩
  · have hle : ¬ sequence ≤ 0 := by omega
    have key : wrapAndSignTx env tx address sequence = (.error .emptyChainID, []) := by
      unfold wrapAndSignTx
      simp [getChainID, h, hle]
    refine ⟨fun _ => key, fun h0 => absurd h0 hs, ?_, ?_⟩
    · rw [key]; rfl
    · rw [key]; exact ⟨_, rfl⟩

/-- Witness for C1 amended: the sample backend without chain id, requested
sequence 7, fails with the chain-not-ready error and an empty trace. -/
theorem wrapAndSignTx_emptyChainID_witness :
    emptyChainEnv.chainID = "" ∧
    wrapAndSignTx emptyChainEnv (.proposeSlot [65] 1000 500) "A" 7 =
      (.error .emptyChainID, []) :=
  ⟨rfl, (wrapAndSignTx_emptyChainID emptyChainEnv (.proposeSlot [65] 1000 500) "A" 7 rfl).1
    (by decide)⟩

/-- For every backend and request, `GovernanceRPCService.Propose` broadcasts the
encoding of the propose transaction it constructed itself, after the calls of
`wrapAndSignTx`, whatever `wrapAndSignTx` returned. -/
theorem Propose_broadcasts_inner (env : Env)
    (args : GovernanceRPCService.GovernanceProposalArgs) :
    GovernanceRPCService.Propose env args =
      (env.broadcastTxCommit (env.binaryBytes (Tx.propose (env.hexToAddress args.Proposer)
          (env.hexToAddress args.From) (env.hexToAddress args.To)
          (env.setString args.Amount 10) args.Reason)),
        (GovernanceRPCService.wrapAndSignTx env (Tx.propose (env.hexToAddress args.Proposer)
          (env.hexToAddress args.From) (env.hexToAddress args.To)
          (env.setString args.Amount 10) args.Reason) args.Proposer).2 ++
        [.broadcastTxCommit (env.binaryBytes (Tx.propose (env.hexToAddress args.Proposer)
          (env.hexToAddress args.From) (env.hexToAddress args.To)
          (env.setString args.Amount 10) args.Reason))]) := rfl

/-- C2, the code at a failing input: on the sample backend the envelope build of
a proposal by "A" succeeds with sequence 4, yet `Propose` hands the encoding of
the bare propose transaction to `BroadcastTxCommit`, not that of the envelope. -/
theorem Propose_sample_broadcasts_unwrapped :
    ∃ envelope,
      (GovernanceRPCService.wrapAndSignTx sampleEnv (.propose [65] [66] [67] 10 "r") "A").1 =
        .ok envelope ∧
      envelope.nonceSequence = some 4 ∧
      (GovernanceRPCService.Propose sampleEnv ⟨"A", "B", "C", "10", "r"⟩).2.getLast? =
        some (.broadcastTxCommit (sampleEnv.binaryBytes (.propose [65] [66] [67] 10 "r"))) ∧
      broadcastCalls (GovernanceRPCService.Propose sampleEnv ⟨"A", "B", "C", "10", "r"⟩).2 = 1 ∧
      sampleEnv.binaryBytes (.propose [65] [66] [67] 10 "r") ≠ sampleEnv.binaryBytes envelope :=
  ⟨_, rfl, rfl, by decide, by decide, by decide⟩

/-- The sample validation refuses every envelope whose nonce layer holds 0. -/
theorem sampleValidateBasic_refuses_zero (t : Tx) (h : t.nonceSequence = some 0) :
    sampleValidateBasic t ≠ none := by
  unfold sampleValidateBasic
  rw [if_pos h]
  exact Option.some_ne_none _

/-- After a successful `wrapAndSignTx` with the requested sequence unset, where
`getSequence` resolved `r`, the nonce layer of the envelope holds
`(r + 1) mod 2^32`, whatever the structural validation accepts. -/
theorem wrapAndSignTx_unset_sequence_mod (env : Env) (tx : Tx) (address : String) (r : Nat)
    (envelope : Tx)
    (hseq : (getSequence env [getSignerAct env address] 0).1.1 = r)
    (hok : (wrapAndSignTx env tx address 0).1 = .ok envelope) :
    envelope.nonceSequence = some ((r + 1) % uint32Size) := by
  obtain ⟨_, slot, henv⟩ := wrapAndSignTx_ok_shape env tx address 0 envelope hok
  simp only [le_refl, if_true, hseq] at henv
  rw [henv]
  rfl

/-- Where the structural validation refuses an envelope whose nonce layer holds
sequence 0, no build with the requested sequence unset succeeds once
`getSequence` has resolved a value congruent to the largest `uint32`. -/
theorem wrapAndSignTx_unset_sequence_no_wrap (env : Env) (tx : Tx) (address : String)
    (envelope : Tx)
    (hval : ∀ t : Tx, t.nonceSequence = some 0 → env.validateBasic t ≠ none)
    (hok : (wrapAndSignTx env tx address 0).1 = .ok envelope) :
    ((getSequence env [getSignerAct env address] 0).1.1 + 1) % uint32Size ≠ 0 := by
  intro hzero
  have hv := wrapAndSignTx_ok_validated env tx address 0 envelope hok
  simp only [le_refl, if_true, hzero] at hv
  exact hval (.sig (.chain env.chainID 0 (.nonce 0 [getSignerAct env address] tx)) none)
    rfl hv

/-- C3: for every successful `wrapAndSignTx` call with the requested sequence
unset and every `uint32` value `r` resolved by `getSequence`, the sequence
stored in the nonce layer of the envelope equals `r + 1` as a number and is
strictly greater than `r`, given that the structural validation run by `signTx`
refuses an envelope whose nonce layer holds sequence 0; at the largest `uint32`
the incremented sequence is 0 and the build does not succeed, so `r + 1` stays
within `uint32`. -/
theorem wrapAndSignTx_unset_sequence (env : Env) (tx : Tx) (address : String) (r : Nat)
    (envelope : Tx) (hr : r < uint32Size)
    (hval : ∀ t : Tx, t.nonceSequence = some 0 → env.validateBasic t ≠ none)
    (hseq : (getSequence env [getSignerAct env address] 0).1.1 = r)
    (hok : (wrapAndSignTx env tx address 0).1 = .ok envelope) :
    envelope.nonceSequence = some (r + 1) ∧ r < r + 1 ∧ r + 1 < uint32Size := by
  have hmod := wrapAndSignTx_unset_sequence_mod env tx address r envelope hseq hok
  have hne := wrapAndSignTx_unset_sequence_no_wrap env tx address envelope hval hok
  rw [hseq] at hne
  have hlt : r + 1 < uint32Size := by
    by_contra hge
    have hmax : r + 1 = uint32Size := by omega
    rw [hmax, Nat.mod_self] at hne
    exact hne rfl
  rw [Nat.mod_eq_of_lt hlt] at hmod
  exact ⟨hmod, Nat.lt_succ_self r, hlt⟩

/-- Witness for C3, the end-to-end scenario of the specification on a backend
whose validation refuses a zero sequence: remote sequence 3 gives nonce
sequence 4. -/
theorem wrapAndSignTx_unset_sequence_witness :
    3 < uint32Size ∧
    (∀ t : Tx, t.nonceSequence = some 0 → validatingEnv.validateBasic t ≠ none) ∧
    (getSequence validatingEnv [getSignerAct validatingEnv "A"] 0).1.1 = 3 ∧
    ∃ envelope,
      (wrapAndSignTx validatingEnv (.proposeSlot [65] 1000 500) "A" 0).1 = .ok envelope ∧
      envelope.nonceSequence = some (3 + 1) ∧ 3 < 3 + 1 ∧ 3 + 1 < uint32Size :=
  ⟨by decide, sampleValidateBasic_refuses_zero, rfl, _, rfl,
    wrapAndSignTx_unset_sequence validatingEnv (.proposeSlot [65] 1000 500) "A" 3 _
      (by decide) sampleValidateBasic_refuses_zero rfl rfl⟩

/-- On the backend whose validation refuses a zero sequence, with the largest
`uint32` as remote sequence, the incremented sequence wraps to 0 and the build
fails with the validation error before any call to the account manager. -/
theorem wrapAndSignTx_max_sequence_refused :
    (getSequence validatingMaxEnv [getSignerAct validatingMaxEnv "A"] 0).1 =
      (4294967295, none) ∧
    (wrapAndSignTx validatingMaxEnv (.proposeSlot [65] 1000 500) "A" 0).1 =
      .error (.collaborator 3) ∧
    accountCalls (wrapAndSignTx validatingMaxEnv (.proposeSlot [65] 1000 500) "A" 0).2 = 0 :=
  ⟨rfl, rfl, rfl⟩

/-- C4: for every non-zero requested sequence `n`, `wrapAndSignTx` makes no
sequence query (no `ABCIQuery`, no decoding) whatever the backend holds for the
signer, and every envelope it builds carries exactly `n` in its nonce layer. -/
theorem wrapAndSignTx_requested_sequence (env : Env) (tx : Tx) (address : String) (n : Nat)
    (hn : n ≠ 0) :
    queryCalls (wrapAndSignTx env tx address n).2 = 0 ∧
    decodeCalls (wrapAndSignTx env tx address n).2 = 0 ∧
    ∀ envelope, (wrapAndSignTx env tx address n).1 = .ok envelope →
      envelope.nonceSequence = some n ∧
      ∃ slot, envelope =
        .sig (.chain env.chainID 0 (.nonce n [getSignerAct env address] tx)) slot := by
  have hle : ¬ n ≤ 0 := by omega
  refine ⟨?_, ?_, ?_⟩
  · unfold wrapAndSignTx
    simp only [hle, if_false]
    split
    · rfl
    · have ht := signTx_trace env
        (.sig (.chain env.chainID 0 (.nonce n [getSignerAct env address] tx)) none) address
      rename_i c hc
      have hcid : c = env.chainID := by
        unfold getChainID at hc
        split at hc <;> simp_all
      subst hcid
      split <;> rename_i hs <;> rw [hs] at ht <;> simpa using ht.1
  · unfold wrapAndSignTx
    simp only [hle, if_false]
    split
    · rfl
    · have ht := signTx_trace env
        (.sig (.chain env.chainID 0 (.nonce n [getSignerAct env address] tx)) none) address
      rename_i c hc
      have hcid : c = env.chainID := by
        unfold getChainID at hc
        split at hc <;> simp_all
      subst hcid
      split <;> rename_i hs <;> rw [hs] at ht <;> simpa using ht.2.2
  · intro envelope hok
    obtain ⟨_, slot, henv⟩ := wrapAndSignTx_ok_shape env tx address n envelope hok
    simp only [hle, if_false] at henv
    exact ⟨by rw [henv]; rfl, slot, henv⟩

/-- Witness for C4: requested sequence 7 on the sample backend, whose remote
sequence is 3: no query, and the built envelope carries 7. -/
theorem wrapAndSignTx_requested_sequence_witness :
    7 ≠ 0 ∧
    queryCalls (wrapAndSignTx sampleEnv (.proposeSlot [65] 1000 500) "A" 7).2 = 0 ∧
    ∃ envelope,
      (wrapAndSignTx sampleEnv (.proposeSlot [65] 1000 500) "A" 7).1 = .ok envelope ∧
      envelope.nonceSequence = some 7 :=
  ⟨by decide,
    (wrapAndSignTx_requested_sequence sampleEnv (.proposeSlot [65] 1000 500) "A" 7
      (by decide)).1, _, rfl,
    ((wrapAndSignTx_requested_sequence sampleEnv (.proposeSlot [65] 1000 500) "A" 7
      (by decide)).2.2 _ rfl).1⟩

/-- C5: when the sequence query succeeds at transport level with an empty value,
`GetSequence` returns sequence 0 and a nil error; `getSequence` then leaves the
caller's sequence variable as it was and does not decode (its trace is the
single `ABCIQuery`). -/
theorem GetSequence_no_record (env : Env) (address : String) (result : ResultABCIQuery)
    (hq : env.abciQuery "/key" (sequenceKey env [getSignerAct env address]) = .ok result)
    (hv : result.response.value = []) :
    GetSequence env address =
      ((0, none), [.abciQuery "/key" (sequenceKey env [getSignerAct env address])]) ∧
    (∀ sequence, getSequence env [getSignerAct env address] sequence =
      ((sequence, none), [.abciQuery "/key" (sequenceKey env [getSignerAct env address])])) ∧
    decodeCalls (GetSequence env address).2 = 0 := by
  have hg : ∀ sequence, getSequence env [getSignerAct env address] sequence =
      ((sequence, none),
        [.abciQuery "/key" (sequenceKey env [getSignerAct env address])]) := by
    intro sequence
    unfold sequenceKey at hq ⊢
    unfold getSequence
    simp only [hq, hv, List.length_nil, if_true]
  refine ⟨hg 0, hg, ?_⟩
  show decodeCalls (getSequence env [getSignerAct env address] 0).2 = 0
  rw [hg 0]
  rfl

/-- Witness for C5: the sample backend with no sequence record, signer "A". -/
theorem GetSequence_no_record_witness :
    freshEnv.abciQuery "/key" (sequenceKey freshEnv [getSignerAct freshEnv "A"]) =
      .ok ⟨⟨[], 10⟩⟩ ∧
    (GetSequence freshEnv "A").1 = (0, none) :=
  ⟨rfl, congrArg Prod.fst (GetSequence_no_record freshEnv "A" ⟨⟨[], 10⟩⟩ rfl rfl).1⟩

/-- C6, as stated, fails: against an empty value the public query operation
hands no height to its caller; `QueryValidator` at height 100 returns a nil
result next to the NoData error. -/
theorem QueryValidator_noData_drops_height :
    ¬ (∀ (env : Env) (address : String) (height : Nat) (resp : ResultABCIQuery),
        env.abciQueryWithOptions "/validator" (stringBytes address) true (toInt64 height) =
          (some resp, none) →
        resp.response.value = [] →
        ∃ result, (QueryValidator env address height).1.1 = some result ∧
          result.Height = resp.response.height) := by
  intro h
  obtain ⟨result, hres, _⟩ := h sampleEnv "0xabc" 100 ⟨⟨[], 100⟩⟩ rfl rfl
  have hnil : (QueryValidator sampleEnv "0xabc" 100).1.1 = none := rfl
  rw [hnil] at hres
  exact Option.noConfusion hres

/-- C6, amended: when the engine returns a response object with an empty value
and no transport error, `getParsed` returns the height carried by the response
together with the NoData error value, leaves the target as it was and does not
decode; each public query operation then returns a nil result with the NoData
error, so the height does not reach its caller. -/
theorem getParsed_noData (env : Env) (path : String) (key : Bytes) (data : Data)
    (height : Nat) (resp : ResultABCIQuery)
    (hq : env.abciQueryWithOptions path key true (toInt64 height) = (some resp, none))
    (hv : resp.response.value = []) :
    getParsed env path key data height =
      (((resp.response.height, some .noData), data),
        [.abciQueryWithOptions path key true (toInt64 height)]) ∧
    decodeCalls (getParsed env path key data height).2 = 0 ∧
    (path = "/validators" → key = [0] → QueryValidators env height =
      ((none, some .noData), [.abciQueryWithOptions path key true (toInt64 height)])) ∧
    (∀ address, path = "/validator" → key = stringBytes address →
      QueryValidator env address height =
        ((none, some .noData), [.abciQueryWithOptions path key true (toInt64 height)])) ∧
    (path = "/slots" → key = [0] → QuerySlots env height =
      ((none, some .noData), [.abciQueryWithOptions path key true (toInt64 height)])) ∧
    (∀ slotId, path = "/slot" → key = stringBytes slotId →
      QuerySlot env slotId height =
        ((none, some .noData), [.abciQueryWithOptions path key true (toInt64 height)])) ∧
    (∀ address, path = "/delegator" → key = stringBytes address →
      QueryDelegator env address height =
        ((none, some .noData), [.abciQueryWithOptions path key true (toInt64 height)])) := by
  have hg : ∀ d, getParsed env path key d height =
      (((resp.response.height, some .noData), d),
        [.abciQueryWithOptions path key true (toInt64 height)]) := by
    intro d
    unfold getParsed StakeRPCService.get
    simp only [hq, hv, List.length_nil, if_true]
  refine ⟨hg data, ?_, ?_, ?_, ?_, ?_, ?_⟩
  · rw [hg data]; rfl
  · intro hp hk
    subst hp hk
    unfold QueryValidators
    rw [hg]
  · intro address hp hk
    subst hp hk
    unfold QueryValidator
    rw [hg]
  · intro hp hk
    subst hp hk
    unfold QuerySlots
    rw [hg]
  · intro slotId hp hk
    subst hp hk
    unfold QuerySlot
    rw [hg]
  · intro address hp hk
    subst hp hk
    unfold QueryDelegator
    rw [hg]

/-- Witness for C6 amended, the scenario of the specification: query-validator
"0xabc" at height 100 against empty bytes. -/
theorem getParsed_noData_witness :
    sampleEnv.abciQueryWithOptions "/validator" (stringBytes "0xabc") true (toInt64 100) =
      (some ⟨⟨[], 100⟩⟩, none) ∧
    (getParsed sampleEnv "/validator" (stringBytes "0xabc") Data.zero 100).1 =
      ((100, some .noData), Data.zero) ∧
    (QueryValidator sampleEnv "0xabc" 100).1 = (none, some .noData) :=
  ⟨rfl,
    congrArg Prod.fst (getParsed_noData sampleEnv "/validator" (stringBytes "0xabc") Data.zero
      100 ⟨⟨[], 100⟩⟩ rfl rfl).1,
    rfl⟩

/-- C7, as stated, fails: on a transport failure `getParsed` returns height 0,
not the requested height 100. -/
theorem getParsed_transport_error_height_zero :
    ¬ (∀ (env : Env) (path : String) (key : Bytes) (data : Data) (height : Nat) (err : Error),
        env.abciQueryWithOptions path key true (toInt64 height) = (none, some err) →
        (getParsed env path key data height).1.1 = (toInt64 height, some err)) := by
  intro h
  have h1 := h transportFailEnv "/validator" (stringBytes "0xabc") Data.zero 100
    (.collaborator 7) rfl
  revert h1
  decide

/-- C7, amended: when the engine call yields no response object, `get` returns
no bytes, the requested height and the error of the call; `getParsed`, given the
transport error, propagates it with height 0, leaves the target as it was and
does not decode. -/
theorem get_transport_error (env : Env) (path : String) (key : Bytes) (data : Data)
    (height : Nat) (err : Error)
    (hq : env.abciQueryWithOptions path key true (toInt64 height) = (none, some err)) :
    StakeRPCService.get env path key (toInt64 height) =
      (([], toInt64 height, some err),
        [.abciQueryWithOptions path key true (toInt64 height)]) ∧
    (∀ (h : Int) (e : Option Error), env.abciQueryWithOptions path key true h = (none, e) →
      StakeRPCService.get env path key h = (([], h, e), [.abciQueryWithOptions path key true h])) ∧
    getParsed env path key data height =
      (((0, some err), data), [.abciQueryWithOptions path key true (toInt64 height)]) ∧
    decodeCalls (getParsed env path key data height).2 = 0 := by
  have hget : ∀ (h : Int) (e : Option Error),
      env.abciQueryWithOptions path key true h = (none, e) →
      StakeRPCService.get env path key h = (([], h, e), [.abciQueryWithOptions path key true h]) := by
    intro h e he
    unfold StakeRPCService.get
    simp only [he]
  have hp : getParsed env path key data height =
      (((0, some err), data), [.abciQueryWithOptions path key true (toInt64 height)]) := by
    unfold getParsed
    rw [hget _ _ hq]
  refine ⟨hget _ _ hq, hget, hp, ?_⟩
  rw [hp]; rfl

/-- Witness for C7 amended: a failing transport, requested height 100. -/
theorem get_transport_error_witness :
    transportFailEnv.abciQueryWithOptions "/validator" (stringBytes "0xabc") true (toInt64 100) =
      (none, some (.collaborator 7)) ∧
    (StakeRPCService.get transportFailEnv "/validator" (stringBytes "0xabc") (toInt64 100)).1 =
      ([], 100, some (.collaborator 7)) ∧
    (getParsed transportFailEnv "/validator" (stringBytes "0xabc") Data.zero 100).1 =
      ((0, some (.collaborator 7)), Data.zero) :=
  ⟨rfl,
    congrArg Prod.fst (get_transport_error transportFailEnv "/validator" (stringBytes "0xabc")
      Data.zero 100 (.collaborator 7) rfl).1,
    congrArg Prod.fst (get_transport_error transportFailEnv "/validator" (stringBytes "0xabc")
      Data.zero 100 (.collaborator 7) rfl).2.2.1⟩

/-- C8: every envelope successfully built by `wrapAndSignTx` from inner
transaction `t`, signer `a` and chain id `c` is the authentication layer over
the chain-scope layer with chain id `c` and height bound 0, over the nonce layer
with the resolved sequence (the requested one when non-zero, else the queried
one plus one in `uint32`) and the signer set `[getSignerAct a]`, over `t`. -/
theorem wrapAndSignTx_layering (env : Env) (t : Tx) (a : String) (c : String)
    (sequence : Nat) (envelope : Tx) (hc : env.chainID = c)
    (hok : (wrapAndSignTx env t a sequence).1 = .ok envelope) :
    ∃ slot resolved,
      envelope = .sig (.chain c 0 (.nonce resolved [getSignerAct env a] t)) slot ∧
      (sequence ≠ 0 → resolved = sequence) ∧
      (sequence = 0 → resolved =
        ((getSequence env [getSignerAct env a] 0).1.1 + 1) % uint32Size) := by
  obtain ⟨_, slot, henv⟩ := wrapAndSignTx_ok_shape env t a sequence envelope hok
  subst hc
  refine ⟨slot, _, henv, ?_, ?_⟩
  · intro hne
    have hle : ¬ sequence ≤ 0 := by omega
    simp only [hle, if_false]
  · intro h0
    subst h0
    simp only [le_refl, if_true]

/-- Witness for C8: the end-to-end scenario on the sample backend. -/
theorem wrapAndSignTx_layering_witness :
    sampleEnv.chainID = "test-chain" ∧
    (∃ slot, (wrapAndSignTx sampleEnv (.proposeSlot [65] 1000 500) "A" 0).1 =
      .ok (.sig (.chain "test-chain" 0
        (.nonce 4 [getSignerAct sampleEnv "A"] (.proposeSlot [65] 1000 500))) slot)) ∧
    ∃ slot resolved, (.sig (.chain "test-chain" 0
        (.nonce 4 [getSignerAct sampleEnv "A"] (.proposeSlot [65] 1000 500)))
          (some ⟨0, List.replicate 20 0, 0, 0, 0,
            sampleBinaryBytes (.sig (.chain "test-chain" 0
              (.nonce 4 [getSignerAct sampleEnv "A"] (.proposeSlot [65] 1000 500))) none),
            [27]⟩) : Tx) =
      .sig (.chain "test-chain" 0
        (.nonce resolved [getSignerAct sampleEnv "A"] (.proposeSlot [65] 1000 500))) slot ∧
      ((0 : Nat) ≠ 0 → resolved = 0) ∧
      ((0 : Nat) = 0 → resolved =
        ((getSequence sampleEnv [getSignerAct sampleEnv "A"] 0).1.1 + 1) % uint32Size) :=
  ⟨rfl, ⟨_, rfl⟩,
    wrapAndSignTx_layering sampleEnv (.proposeSlot [65] 1000 500) "A" "test-chain" 0 _ rfl rfl⟩

/-- C9: each of the seven stake write operations returns a nil result with the
error of its prepare step and never calls `BroadcastTxCommit` when preparing the
envelope fails; otherwise it calls `BroadcastTxCommit` exactly once, on the wire
encoding of the prepared envelope, and returns the pair it gets unchanged. -/
theorem stake_write_operations (env : Env) :
    (∀ args, WriteContract env (prepareDeclareCandidacyTx env args)
      (DeclareCandidacy env args)) ∧
    (∀ args, WriteContract env (prepareWithdrawCandidacyTx env args)
      (WithdrawCandidacy env args)) ∧
    (∀ args, WriteContract env (prepareEditCandidacyTx env args) (EditCandidacy env args)) ∧
    (∀ args, WriteContract env (prepareProposeSlotTx env args) (ProposeSlot env args)) ∧
    (∀ args, WriteContract env (prepareAcceptSlotTx env args) (AcceptSlot env args)) ∧
    (∀ args, WriteContract env (prepareWithdrawSlotTx env args) (WithdrawSlot env args)) ∧
    (∀ args, WriteContract env (prepareCancelSlotTx env args) (CancelSlot env args)) := by
  refine ⟨?_, ?_, ?_, ?_, ?_, ?_, ?_⟩
  · intro args
    refine writeContract_of_prepare env (prepareDeclareCandidacyTx env args) ?_
    unfold prepareDeclareCandidacyTx
    split
    · rfl
    · exact wrapAndSignTx_no_broadcast _ _ _ _
  · intro args
    exact writeContract_of_prepare env (prepareWithdrawCandidacyTx env args)
      (wrapAndSignTx_no_broadcast _ _ _ _)
  · intro args
    refine writeContract_of_prepare env (prepareEditCandidacyTx env args) ?_
    unfold prepareEditCandidacyTx
    split
    · rfl
    · exact wrapAndSignTx_no_broadcast _ _ _ _
  · intro args
    exact writeContract_of_prepare env (prepareProposeSlotTx env args)
      (wrapAndSignTx_no_broadcast _ _ _ _)
  · intro args
    exact writeContract_of_prepare env (prepareAcceptSlotTx env args)
      (wrapAndSignTx_no_broadcast _ _ _ _)
  · intro args
    exact writeContract_of_prepare env (prepareWithdrawSlotTx env args)
      (wrapAndSignTx_no_broadcast _ _ _ _)
  · intro args
    exact writeContract_of_prepare env (prepareCancelSlotTx env args)
      (wrapAndSignTx_no_broadcast _ _ _ _)

/-- C10: for an envelope that passes structural validation, `signTx` with an
empty signer address returns the address-required error exactly when the
unwrapped transaction exposes the Signable capability; without the capability
it returns no error and leaves the transaction as it was; in both cases it makes
no call, so none to the account manager. -/
theorem signTx_empty_address (env : Env) (tx : Tx) (hv : env.validateBasic tx = none) :
    ((signTx env tx "").1.2 = some .addressRequired ↔ tx.signable.isSome = true) ∧
    (tx.signable = none → signTx env tx "" = ((tx, none), [])) ∧
    (tx.signable.isSome = true → signTx env tx "" = ((tx, some .addressRequired), [])) ∧
    accountCalls (signTx env tx "").2 = 0 := by
  cases hs : tx.signable with
  | none =>
    have h : signTx env tx "" = ((tx, none), []) := by
      unfold signTx
      simp only [hv, hs]
    refine ⟨?_, fun _ => h, ?_, ?_⟩
    · rw [h]; simp
    · intro hsome; simp at hsome
    · rw [h]; rfl
  | some p =>
    have h : signTx env tx "" = ((tx, some .addressRequired), []) := by
      unfold signTx
      simp only [hv, hs, if_true]
    refine ⟨?_, ?_, fun _ => h, ?_⟩
    · rw [h]; simp
    · intro hnone; simp at hnone
    · rw [h]; rfl

/-- Witness for C10: on the sample backend a signature layer with an empty
address is refused, a bare nonce layer is accepted unsigned. -/
theorem signTx_empty_address_witness :
    sampleEnv.validateBasic (.sig (.withdraw [65]) none) = none ∧
    signTx sampleEnv (.sig (.withdraw [65]) none) "" =
      ((.sig (.withdraw [65]) none, some .addressRequired), []) ∧
    signTx sampleEnv (.nonce 1 [] (.withdraw [65])) "" =
      ((.nonce 1 [] (.withdraw [65]), none), []) :=
  ⟨rfl,
    (signTx_empty_address sampleEnv (.sig (.withdraw [65]) none) rfl).2.2.1 rfl,
    (signTx_empty_address sampleEnv (.nonce 1 [] (.withdraw [65])) rfl).2.1 rfl⟩

/-- The end-to-end scenario of the specification on the sample backend:
propose-slot from "A" with no explicit sequence and remote sequence 3 broadcasts
once, an envelope with nonce sequence 4, and returns the commit result of the
broadcaster unchanged. -/
theorem ProposeSlot_sample_scenario :
    ∃ envelope,
      (prepareProposeSlotTx sampleEnv ⟨0, "A", 1000, 500⟩).1 = .ok envelope ∧
      envelope.nonceSequence = some 4 ∧
      (ProposeSlot sampleEnv ⟨0, "A", 1000, 500⟩).1 =
        sampleEnv.broadcastTxCommit (sampleEnv.binaryBytes envelope) ∧
      broadcastCalls (ProposeSlot sampleEnv ⟨0, "A", 1000, 500⟩).2 = 1 :=
  ⟨_, rfl, rfl, rfl, by decide⟩

/-! ## Claims on the proposal store and the block service -/

theorem SaveProposal_fresh (lib : DbLib) (db : List ProposalRow) (p : Proposal)
    (hfresh : ∀ r ∈ db, r.id ≠ lib.toUpper p.Id) :
    SaveProposal lib db p = some (db ++ [insertedRow lib p]) := by
  unfold SaveProposal
  have hany : db.any (fun r => decide (r.id = lib.toUpper p.Id)) = false := by
    rw [List.any_eq_false]
    intro r hr
    simpa using hfresh r hr
  rw [hany]
  rfl

/-- C11, as stated, fails: the proposal returned by `GetProposalById` carries as
`Id` the identifier passed to the lookup, letter for letter.  After saving the
proposal with id `abc123`, the lookup of `abc123` returns an `Id` that is not the
stored identifier `ABC123`, and the lookup of `ABC123` one that is not the `Id`
of the saved proposal. -/
theorem GetProposalById_id_not_stored_id :
    ¬ (∀ (lib : DbLib) (db : List ProposalRow) (p : Proposal) (q : String),
        lib.toUpper q = lib.toUpper p.Id → (∀ r ∈ db, r.id ≠ lib.toUpper p.Id) →
        ∃ db' r, SaveProposal lib db p = some db' ∧ GetProposalById lib db' q = some r ∧
          r.Id = lib.toUpper p.Id) ∧
    ¬ (∀ (lib : DbLib) (db : List ProposalRow) (p : Proposal) (q : String),
        lib.toUpper q = lib.toUpper p.Id → (∀ r ∈ db, r.id ≠ lib.toUpper p.Id) →
        ∃ db' r, SaveProposal lib db p = some db' ∧ GetProposalById lib db' q = some r ∧
          r.Id = p.Id) := by
  constructor
  · intro h
    obtain ⟨db', r, hs, hg, hid⟩ := h sampleDbLib [] sampleProposal "abc123" rfl
      (fun r hr => absurd hr (List.not_mem_nil r))
    have hs' : SaveProposal sampleDbLib [] sampleProposal =
        some [insertedRow sampleDbLib sampleProposal] := rfl
    rw [hs'] at hs
    cases hs
    have hg' : GetProposalById sampleDbLib [insertedRow sampleDbLib sampleProposal] "abc123" =
        some sampleProposal := rfl
    rw [hg'] at hg
    cases hg
    revert hid
    decide
  · intro h
    obtain ⟨db', r, hs, hg, hid⟩ := h sampleDbLib [] sampleProposal "ABC123" rfl
      (fun r hr => absurd hr (List.not_mem_nil r))
    have hs' : SaveProposal sampleDbLib [] sampleProposal =
        some [insertedRow sampleDbLib sampleProposal] := rfl
    rw [hs'] at hs
    cases hs
    have hg' : GetProposalById sampleDbLib [insertedRow sampleDbLib sampleProposal] "ABC123" =
        some { sampleProposal with Id := "ABC123" } := rfl
    rw [hg'] at hg
    cases hg
    revert hid
    decide

/-- C11, amended: over a table keyed by id, for every proposal `p` and every
identifier `q` with the same upper-case form as `p.Id`, `SaveProposal p` on a
table with no row for that id succeeds, and `GetProposalById q` then returns a
proposal (not absent) whose proposer, block height, from and to addresses,
amount, reason and creation time are those of `p` (the addresses being read
back from their hex strings), whose result fields are empty or zero, and whose
`Id` is `q` as passed to the lookup. -/
theorem GetProposalById_after_save (lib : DbLib) (db : List ProposalRow) (p : Proposal)
    (q : String) (hcase : lib.toUpper q = lib.toUpper p.Id)
    (hfresh : ∀ r ∈ db, r.id ≠ lib.toUpper p.Id)
    (hprp : lib.hexToAddress (lib.addressString p.Proposer) = p.Proposer)
    (hfrom : lib.hexToAddress (lib.addressString p.From) = p.From)
    (hto : lib.hexToAddress (lib.addressString p.To) = p.To) :
    SaveProposal lib db p = some (db ++ [insertedRow lib p]) ∧
    GetProposalById lib (db ++ [insertedRow lib p]) q =
      some { Id := q, Proposer := p.Proposer, BlockHeight := p.BlockHeight, From := p.From,
             To := p.To, Amount := p.Amount, Reason := p.Reason, CreatedAt := p.CreatedAt,
             Result := "", ResultMsg := "", ResultBlockHeight := 0, ResultAt := "" } := by
  refine ⟨SaveProposal_fresh lib db p hfresh, ?_⟩
  have hnone : db.find? (fun r => decide (r.id = lib.toUpper q)) = none := by
    rw [List.find?_eq_none]
    intro r hr
    rw [hcase]
    simpa using hfresh r hr
  have hfind : (db ++ [insertedRow lib p]).find? (fun r => decide (r.id = lib.toUpper q)) =
      some (insertedRow lib p) := by
    rw [List.find?_append, hnone]
    simp [List.find?, insertedRow, hcase]
  unfold GetProposalById
  rw [hfind]
  simp only [insertedRow, hprp, hfrom, hto]

/-- Witness for C11 amended, the scenario of the specification: save with id
`abc123`, then look up `ABC123` and `abc123`. -/
theorem GetProposalById_after_save_witness :
    sampleDbLib.toUpper "ABC123" = sampleDbLib.toUpper sampleProposal.Id ∧
    (∀ r ∈ ([] : List ProposalRow), r.id ≠ sampleDbLib.toUpper sampleProposal.Id) ∧
    GetProposalById sampleDbLib ([] ++ [insertedRow sampleDbLib sampleProposal]) "ABC123" =
      some { sampleProposal with Id := "ABC123" } ∧
    GetProposalById sampleDbLib ([] ++ [insertedRow sampleDbLib sampleProposal]) "abc123" =
      some sampleProposal :=
  ⟨rfl, fun r hr => absurd hr (List.not_mem_nil r),
    (GetProposalById_after_save sampleDbLib [] sampleProposal "ABC123" rfl
      (fun r hr => absurd hr (List.not_mem_nil r)) rfl rfl rfl).2,
    (GetProposalById_after_save sampleDbLib [] sampleProposal "abc123" rfl
      (fun r hr => absurd hr (List.not_mem_nil r)) rfl rfl rfl).2⟩

/-- For every block and every negative index below `NumTxs`, the guard of
`GetTransactionFromBlock` lets the index through and the slice access is out of
range. -/
theorem GetTransactionFromBlock_negative (b : CmtBackend) (height : Nat) (index : Int)
    (block : ResultBlock) (hb : b.block (toInt64 height) = .ok block)
    (hneg : index < 0) (hnum : 0 ≤ block.NumTxs) :
    CmtRPCService.GetTransactionFromBlock b height index =
      (.indexOutOfRange index block.Txs.length, [.block (toInt64 height)]) := by
  unfold CmtRPCService.GetTransactionFromBlock
  have hguard : ¬ index ≥ block.NumTxs := by omega
  have hidx : sliceIndex block.Txs index = none := by
    unfold sliceIndex
    have : ¬ 0 ≤ index := by omega
    simp only [this, if_false]
  simp only [hb, hguard, if_false, hidx]

/-- For a block whose `NumTxs` is the length of `Txs` and a non-negative index:
at or beyond the number of transactions the operation returns the
no-transaction error without any lookup; below it, the element at `index` is
read and looked up. -/
theorem GetTransactionFromBlock_nonnegative (b : CmtBackend) (height : Nat) (index : Int)
    (block : ResultBlock) (hb : b.block (toInt64 height) = .ok block)
    (hnum : block.NumTxs = (block.Txs.length : Int)) (hpos : 0 ≤ index) :
    (index ≥ (block.Txs.length : Int) →
      CmtRPCService.GetTransactionFromBlock b height index =
        (.returned (none, some (.noTransactionInBlock height index)),
          [.block (toInt64 height)])) ∧
    (index < (block.Txs.length : Int) →
      ∃ tx, block.Txs[index.toNat]? = some tx ∧
        CmtRPCService.GetTransactionFromBlock b height index =
          (.returned (CmtRPCService.GetTransaction b (b.encodeToString (b.txHash tx))).1,
            .block (toInt64 height) ::
              (CmtRPCService.GetTransaction b (b.encodeToString (b.txHash tx))).2)) := by
  constructor
  · intro hge
    unfold CmtRPCService.GetTransactionFromBlock
    have hguard : index ≥ block.NumTxs := by omega
    simp only [hb, hguard, if_true]
  · intro hlt
    have hlen : index.toNat < block.Txs.length := by omega
    refine ⟨block.Txs[index.toNat], List.getElem?_eq_getElem hlen, ?_⟩
    unfold CmtRPCService.GetTransactionFromBlock
    have hguard : ¬ index ≥ block.NumTxs := by omega
    have hidx : sliceIndex block.Txs index = some block.Txs[index.toNat] := by
      unfold sliceIndex
      simp only [hpos, if_true]
      exact List.getElem?_eq_getElem hlen
    simp only [hb, hguard, if_false, hidx]

/-- C12, the code at a failing input: on a block with two transactions, index
-1 passes the guard `index >= NumTxs`, no error is returned and the access
`Txs[-1]` is out of range; the neighbouring indices behave as claimed (index 1
is read and looked up, index 2 gets the no-transaction error without lookup). -/
theorem GetTransactionFromBlock_sample_negative_index :
    sampleCmt.block (toInt64 1) = .ok ⟨2, [[1], [2]]⟩ ∧
    CmtRPCService.GetTransactionFromBlock sampleCmt 1 (-1) =
      (.indexOutOfRange (-1) 2, [.block 1]) ∧
    CmtRPCService.GetTransactionFromBlock sampleCmt 1 1 =
      (.returned (some ⟨[2], 5, 0, [2]⟩, none), [.block 1, .tx [2] false]) ∧
    CmtRPCService.GetTransactionFromBlock sampleCmt 1 2 =
      (.returned (none, some (.noTransactionInBlock 1 2)), [.block 1]) ∧
    txLookups (CmtRPCService.GetTransactionFromBlock sampleCmt 1 2).2 = 0 :=
  ⟨rfl, by decide, by decide, by decide, by decide⟩

end Devchain
